import Mathlib

/-!
Verification of the cap-height measurement library.

The library rasterizes a text sample onto an RGBA pixel buffer, scans the
buffer for the first and last rows containing foreground content, and
publishes the vertical span as a fraction of the font size.  Two variants
exist in the repository: the primary ES6 variant (DPI-aware, threshold
foreground test, `--cap-height` key) and the legacy variant (DPI-naive,
exact black-pixel test, `cap-height` key).  Both are embedded below.

The rasterization backend (canvas creation, `fillText`, `getImageData`) is
host functionality outside the library; it is abstracted as a function
producing the RGBA channel list that `getImageData` would return.  All
JavaScript numbers are modelled as rationals, pixel-buffer indices as
integers (so that the `-1` sentinel of `findIndex`/`findLastIndex` is
representable), and thrown `RangeError`s as `Except.error` carrying the
message string.
-/

namespace CapHeight

/-- The threshold to determine non-white pixels (primary variant, `THRESHOLD`). -/
def THRESHOLD : ℚ := 0.75

/-- Canvas size over font-size multiplier (`MULTIPLIER` in the primary variant,
the local `multiplier` in the legacy variant; both are 2). -/
def MULTIPLIER : ℚ := 2

/-- Legacy foreground test `isBlack`: a channel value is black iff it equals 0. -/
def isBlack (value : ℕ) : Bool := value == 0

/-- Primary foreground test `isNotWhite`: a channel value is foreground iff it
is strictly below `255 * THRESHOLD`. -/
def isNotWhite (value : ℕ) : Bool := decide ((value : ℚ) < 255 * THRESHOLD)

/-- First index of the list satisfying the predicate, if any.  Helper for the
embedding of lodash `_.findIndex`. -/
def findIndexAux (p : ℕ → Bool) : List ℕ → Option ℕ
  | [] => none
  | v :: rest => if p v then some 0 else Option.map (· + 1) (findIndexAux p rest)

/-- Last index of the list satisfying the predicate, if any.  Helper for the
embedding of lodash `_.findLastIndex`. -/
def findLastIndexAux (p : ℕ → Bool) : List ℕ → Option ℕ
  | [] => none
  | v :: rest =>
    match findLastIndexAux p rest with
    | some i => some (i + 1)
    | none => if p v then some 0 else none

/-- lodash `_.findIndex`: index of the first element the predicate holds for,
and -1 when there is none. -/
def findIndex (p : ℕ → Bool) (arr : List ℕ) : ℤ :=
  match findIndexAux p arr with
  | some i => (i : ℤ)
  | none => -1

/-- lodash `_.findLastIndex`: index of the last element the predicate holds
for, and -1 when there is none. -/
def findLastIndex (p : ℕ → Bool) (arr : List ℕ) : ℤ :=
  match findLastIndexAux p arr with
  | some i => (i : ℤ)
  | none => -1

/-- Primary `getYPosition`: `_.floor((index / 4) / width)` — the pixel row of a
flat RGBA index. -/
def getYPosition (index : ℤ) (width : ℚ) : ℤ := ⌊(index : ℚ) / 4 / width⌋

/-- Legacy `getYPosition`: `_.floor(i / (width * 4))`. -/
def getYPositionLegacy (i : ℤ) (width : ℚ) : ℤ := ⌊(i : ℚ) / (width * 4)⌋

/-- Primary `getAscent`: forward scan for the first non-white channel value,
mapped to its row. -/
def getAscent (pixelData : List ℕ) (width : ℚ) : ℤ :=
  getYPosition (findIndex isNotWhite pixelData) width

/-- Primary `getDescent`: backward scan for the last non-white channel value,
mapped to its row. -/
def getDescent (pixelData : List ℕ) (width : ℚ) : ℤ :=
  getYPosition (findLastIndex isNotWhite pixelData) width

/-- Legacy `getAscent`: forward scan for the first black channel value. -/
def getAscentLegacy (pixelData : List ℕ) (width : ℚ) : ℤ :=
  getYPositionLegacy (findIndex isBlack pixelData) width

/-- Legacy `getDescent`: backward scan for the last black channel value. -/
def getDescentLegacy (pixelData : List ℕ) (width : ℚ) : ℤ :=
  getYPositionLegacy (findLastIndex isBlack pixelData) width

/-- The `{ascent, descent}` record produced by the primary `getMetrics`. -/
structure Metrics where
  ascent : ℤ
  descent : ℤ

/-- Primary `getMetrics`: the ascent and descent of the pixel data.  The
read-back of the context into the flat RGBA array (`getPixelData`) is the
caller's `pixelData` argument here. -/
def getMetrics (pixelData : List ℕ) (width : ℚ) : Metrics :=
  ⟨getAscent pixelData width, getDescent pixelData width⟩

/-- Primary `getHeight`: `descent - ascent + 1`. -/
def getHeight (m : Metrics) : ℤ := m.descent - m.ascent + 1

/-- Legacy `getHeight(descent, ascent)`: `descent + 1 - ascent`. -/
def getHeightLegacy (descent ascent : ℤ) : ℤ := descent + 1 - ascent

/-- `toPx`: convert a physical pixel value to a CSS pixel (`value / DPR`). -/
def toPx (dpr value : ℚ) : ℚ := value / dpr

/-- `toDot`: convert a CSS pixel to a physical pixel (`value * DPR`). -/
def toDot (dpr value : ℚ) : ℚ := value * dpr

/-- The published cap-height contract: the expression
`toPx(capHeight) / fontSize` stored in the result record, as a function of the
physical pixel height, the device pixel ratio and the numeric font size. -/
def capHeightFraction (heightPhysical dpr fontSize : ℚ) : ℚ :=
  toPx dpr heightPhysical / fontSize

/-- The font-properties record.  The library reads and writes the fixed keys
`font-style`, `font-weight`, `font-size`, `font-family` and the result key
`cap-height` / `--cap-height`; a missing key is `none`. -/
structure FontProperties where
  fontStyle : Option String
  fontWeight : Option ℕ
  fontSize : Option String
  fontFamily : Option String
  capHeight : Option ℚ

/-- The default font properties of both variants. -/
def defaults : FontProperties :=
  ⟨some "normal", some 400, some "100px", some "serif", none⟩

/-- The record with every key missing (`{}`). -/
def emptyProps : FontProperties := ⟨none, none, none, none, none⟩

/-- `_.defaults(properties, defaults)` in the primary variant and
`_.merge(defaults, properties)` in the legacy variant: on these flat records
both fill each missing key from `defaults` and keep every present key. -/
def defaultsFill (p : FontProperties) : FontProperties :=
  ⟨some (p.fontStyle.getD "normal"), some (p.fontWeight.getD 400),
   some (p.fontSize.getD "100px"), some (p.fontFamily.getD "serif"),
   p.capHeight⟩

/-- Strip every non-digit character: `_.replace(value, /\D/g, '')`. -/
def stripNonDigits (s : String) : String :=
  String.mk (s.toList.filter (fun c => c.isDigit))

/-- Decimal value of a digit-only string. -/
def digitsToNat (s : String) : ℕ :=
  s.toList.foldl (fun acc c => 10 * acc + (c.toNat - 48)) 0

/-- lodash `_.toNumber` restricted to the digit-only outputs of the `\D`
strip: the empty string converts to 0 and a digit string to its decimal
value; the NaN outcome (modelled as `none`) cannot occur on such inputs. -/
def toNumber (s : String) : Option ℚ := some ((digitsToNat s : ℕ) : ℚ)

/-- JavaScript `parseFloat` restricted to digit-only strings: the empty
string gives NaN (`none`), a digit string its decimal value. -/
def parseFloatDigits (s : String) : Option ℚ :=
  if s.isEmpty then none else some ((digitsToNat s : ℕ) : ℚ)

/-- The `RangeError` message for an invalid (NaN) font-size. -/
def invalidFontSizeMsg : String :=
  "Cannot calculate the height of the text with invalid font-size."

/-- The `RangeError` message for a zero font-size. -/
def zeroFontSizeMsg : String :=
  "Cannot calculate the height of the text with font-size: 0."

/-- The `RangeError` message for whitespace text. -/
def whitespaceMsg : String := "Cannot calculate the height of whitespace."

/-- Primary `getFontSize`: read `font-size` (defaulting to the number 0,
which stringifies to "0" under the replace), strip non-digits, convert with
`_.toNumber`, and reject NaN and 0. -/
def getFontSize (properties : FontProperties) : Except String ℚ :=
  match toNumber (stripNonDigits (properties.fontSize.getD "0")) with
  | none => Except.error invalidFontSizeMsg
  | some fontSize =>
    if fontSize = 0 then Except.error zeroFontSizeMsg
    else Except.ok fontSize

/-- Legacy `getFontSize`: identical except the conversion is `parseFloat`,
for which the empty string is NaN rather than 0. -/
def getFontSizeLegacy (properties : FontProperties) : Except String ℚ :=
  match parseFloatDigits (stripNonDigits (properties.fontSize.getD "0")) with
  | none => Except.error invalidFontSizeMsg
  | some fontSize =>
    if fontSize = 0 then Except.error zeroFontSizeMsg
    else Except.ok fontSize

/-- The whitespace test `/\s/.test(text)`: true iff the text contains a
whitespace character. -/
def hasWhitespaceChar (text : String) : Bool :=
  text.toList.any (fun c => c.isWhitespace)

/-- A width and height, in CSS or physical pixels. -/
structure Dimensions where
  width : ℚ
  height : ℚ

/-- The logical raster dimensions of the primary variant:
`base = MULTIPLIER * fontSize`, width `base * text.length`, height `base`. -/
def rasterDimensions (fontSize : ℚ) (text : String) : Dimensions :=
  ⟨(MULTIPLIER * fontSize) * (text.length : ℚ), MULTIPLIER * fontSize⟩

/-- `_.mapValues(dimensions, toDot)`: the physical dimensions. -/
def physicalDimensionsOf (dpr : ℚ) (d : Dimensions) : Dimensions :=
  ⟨toDot dpr d.width, toDot dpr d.height⟩

/-- The rasterization backend: given the font properties, the text and the
physical dimensions, the RGBA channel list that `getImageData` returns for
the painted canvas.  Canvas creation and drawing are host functionality,
abstracted by this function. -/
def RasterBackend : Type := FontProperties → String → Dimensions → List ℕ

/-- Primary `measureTextHeight(text, properties)`: extract the font size,
reject whitespace text, compute the raster geometry, scan the pixel data for
ascent and descent, and return the properties with the `--cap-height` key set
to `toPx(getHeight(metrics)) / fontSize`. -/
def measureTextHeight (raster : RasterBackend) (dpr : ℚ) (text : String)
    (properties : FontProperties) : Except String FontProperties :=
  match getFontSize properties with
  | Except.error e => Except.error e
  | Except.ok fontSize =>
    if hasWhitespaceChar text then Except.error whitespaceMsg
    else
      let dimensions := rasterDimensions fontSize text
      let physicalDimensions := physicalDimensionsOf dpr dimensions
      let pixelData := raster properties text physicalDimensions
      let metrics := getMetrics pixelData physicalDimensions.width
      let capHeight := getHeight metrics
      Except.ok { properties with
        capHeight := some (toPx dpr (capHeight : ℚ) / fontSize) }

/-- Primary `calculate(properties, text)`: fill the defaults and thread the
result through `measureTextHeight`. -/
def calculate (raster : RasterBackend) (dpr : ℚ) (properties : FontProperties)
    (text : String) : Except String FontProperties :=
  measureTextHeight raster dpr text (defaultsFill properties)

/-- The default value of the `text` parameter of `calculate`. -/
def defaultText : String := "H"

/-- Legacy `measureTextHeight(properties, text)`: extract the font size,
default empty text to "H" (`text || "H"`), reject whitespace text, rasterize
at `2 * fontSize * text.length` by `2 * fontSize` with no DPI scaling, and
return the pixel height `getHeight(descent, ascent)`. -/
def measureTextHeightLegacy (raster : RasterBackend) (properties : FontProperties)
    (text0 : String) : Except String ℤ :=
  match getFontSizeLegacy properties with
  | Except.error e => Except.error e
  | Except.ok fontSize =>
    let text := if text0.isEmpty then "H" else text0
    if hasWhitespaceChar text then Except.error whitespaceMsg
    else
      let width := MULTIPLIER * fontSize * (text.length : ℚ)
      let height := MULTIPLIER * fontSize
      let pixelData := raster properties text ⟨width, height⟩
      Except.ok (getHeightLegacy (getDescentLegacy pixelData width)
        (getAscentLegacy pixelData width))

/-- Legacy `calculate(properties, text)`: merge with the defaults, measure the
pixel height, divide by the font size and store the ratio under `cap-height`. -/
def calculateLegacy (raster : RasterBackend) (properties : FontProperties)
    (text : String) : Except String FontProperties :=
  let merged := defaultsFill properties
  match measureTextHeightLegacy raster merged text with
  | Except.error e => Except.error e
  | Except.ok height =>
    match getFontSizeLegacy merged with
    | Except.error e => Except.error e
    | Except.ok fontSize =>
      Except.ok { merged with capHeight := some ((height : ℚ) / fontSize) }

/-- A heap of font-properties records, for the object-identity model of the
primary variant: JavaScript objects are references into the heap, and the
lodash operations `_.defaults` and `_.assign` mutate the referenced record in
place while returning the same reference. -/
def Heap : Type := ℕ → FontProperties

/-- Write one record of the heap. -/
def heapUpdate (h : Heap) (r : ℕ) (v : FontProperties) : Heap :=
  fun a => if a = r then v else h a

/-- `_.defaults(object, defaults)` on the heap: mutate the record at `r` in
place and return the same reference. -/
def defaultsRef (h : Heap) (r : ℕ) : Heap × ℕ :=
  (heapUpdate h r (defaultsFill (h r)), r)

/-- `_.assign(object, {'--cap-height': v})` on the heap: mutate the record at
`r` in place and return the same reference. -/
def assignCapHeightRef (h : Heap) (r : ℕ) (v : ℚ) : Heap × ℕ :=
  (heapUpdate h r { h r with capHeight := some v }, r)

/-- Primary `measureTextHeight` on the heap model: identical pipeline, with
the final `_.assign` performed as an in-place mutation of the input
reference. -/
def measureTextHeightRef (raster : RasterBackend) (dpr : ℚ) (text : String)
    (h : Heap) (r : ℕ) : Except String (Heap × ℕ) :=
  match getFontSize (h r) with
  | Except.error e => Except.error e
  | Except.ok fontSize =>
    if hasWhitespaceChar text then Except.error whitespaceMsg
    else
      let dimensions := rasterDimensions fontSize text
      let physicalDimensions := physicalDimensionsOf dpr dimensions
      let pixelData := raster (h r) text physicalDimensions
      let metrics := getMetrics pixelData physicalDimensions.width
      let capHeight := getHeight metrics
      Except.ok (assignCapHeightRef h r (toPx dpr (capHeight : ℚ) / fontSize))

/-- Primary `calculate` on the heap model: `_.defaults` mutates the input
record in place, then `measureTextHeight` assigns the result key into the
same record. -/
def calculateRef (raster : RasterBackend) (dpr : ℚ) (h : Heap) (r : ℕ)
    (text : String) : Except String (Heap × ℕ) :=
  let step := defaultsRef h r
  measureTextHeightRef raster dpr text step.1 step.2

/-- A backend whose canvas stays fully white: every channel read back is 255
(here the degenerate empty read-back is used where the content does not
matter). -/
def whiteRaster : RasterBackend := fun _ _ _ => []

/-- A two-row, one-pixel-wide demonstration buffer: both rows contain a
foreground (0) channel. -/
def demoBuf : List ℕ := [0, 255, 255, 255, 0, 255, 255, 255]

/-- A demonstration heap: every reference holds the empty record. -/
def demoHeap : Heap := fun _ => emptyProps

lemma findIndexAux_some_lt {p : ℕ → Bool} :
    ∀ {l : List ℕ} {i : ℕ}, findIndexAux p l = some i → i < l.length := by
  intro l
  induction l with
  | nil => intro i h; simp [findIndexAux] at h
  | cons v rest ih =>
    intro i h
    cases hv : p v with
    | true =>
      simp [findIndexAux, hv] at h
      subst h
      simp
    | false =>
      simp [findIndexAux, hv] at h
      obtain ⟨j, hj, hji⟩ := h
      subst hji
      have := ih hj
      simp
      omega

lemma findIndexAux_some_p {p : ℕ → Bool} :
    ∀ {l : List ℕ} {i : ℕ}, findIndexAux p l = some i → p (l.getD i 0) = true := by
  intro l
  induction l with
  | nil => intro i h; simp [findIndexAux] at h
  | cons v rest ih =>
    intro i h
    cases hv : p v with
    | true =>
      simp [findIndexAux, hv] at h
      subst h
      simpa using hv
    | false =>
      simp [findIndexAux, hv] at h
      obtain ⟨j, hj, hji⟩ := h
      subst hji
      simpa using ih hj

lemma findIndexAux_some_min {p : ℕ → Bool} :
    ∀ {l : List ℕ} {i : ℕ}, findIndexAux p l = some i →
      ∀ j, j < i → p (l.getD j 0) = false := by
  intro l
  induction l with
  | nil => intro i h; simp [findIndexAux] at h
  | cons v rest ih =>
    intro i h j hj
    cases hv : p v with
    | true =>
      simp [findIndexAux, hv] at h
      subst h
      omega
    | false =>
      simp [findIndexAux, hv] at h
      obtain ⟨k, hk, hki⟩ := h
      subst hki
      cases j with
      | zero => simpa using hv
      | succ j0 =>
        simp only [List.getD_cons_succ]
        exact ih hk j0 (by omega)

lemma findIndexAux_exists {p : ℕ → Bool} :
    ∀ {l : List ℕ} {i : ℕ}, i < l.length → p (l.getD i 0) = true →
      ∃ j, findIndexAux p l = some j ∧ j ≤ i := by
  intro l
  induction l with
  | nil => intro i hi; simp at hi
  | cons v rest ih =>
    intro i hi hp
    cases hv : p v with
    | true => exact ⟨0, by simp [findIndexAux, hv], Nat.zero_le i⟩
    | false =>
      cases i with
      | zero => simp [hv] at hp
      | succ i0 =>
        have hi0 : i0 < rest.length := by simp at hi; omega
        have hp0 : p (rest.getD i0 0) = true := by simpa using hp
        obtain ⟨j, hj, hji⟩ := ih hi0 hp0
        exact ⟨j + 1, by simp [findIndexAux, hv, hj], by omega⟩

lemma findIndexAux_eq_none {p : ℕ → Bool} {l : List ℕ}
    (h : ∀ v ∈ l, p v = false) : findIndexAux p l = none := by
  induction l with
  | nil => rfl
  | cons v rest ih =>
    have hv : p v = false := h v (List.mem_cons_self v rest)
    have hr := ih (fun x hx => h x (List.mem_cons_of_mem v hx))
    simp [findIndexAux, hv, hr]

lemma findLastIndexAux_some_lt {p : ℕ → Bool} :
    ∀ {l : List ℕ} {i : ℕ}, findLastIndexAux p l = some i → i < l.length := by
  intro l
  induction l with
  | nil => intro i h; simp [findLastIndexAux] at h
  | cons v rest ih =>
    intro i h
    cases hr : findLastIndexAux p rest with
    | some k =>
      simp [findLastIndexAux, hr] at h
      subst h
      have := ih hr
      simp
      omega
    | none =>
      cases hv : p v with
      | true =>
        simp [findLastIndexAux, hr, hv] at h
        subst h
        simp
      | false => simp [findLastIndexAux, hr, hv] at h

lemma findLastIndexAux_some_p {p : ℕ → Bool} :
    ∀ {l : List ℕ} {i : ℕ}, findLastIndexAux p l = some i → p (l.getD i 0) = true := by
  intro l
  induction l with
  | nil => intro i h; simp [findLastIndexAux] at h
  | cons v rest ih =>
    intro i h
    cases hr : findLastIndexAux p rest with
    | some k =>
      simp [findLastIndexAux, hr] at h
      subst h
      simpa using ih hr
    | none =>
      cases hv : p v with
      | true =>
        simp [findLastIndexAux, hr, hv] at h
        subst h
        simpa using hv
      | false => simp [findLastIndexAux, hr, hv] at h

lemma findLastIndexAux_none_all {p : ℕ → Bool} :
    ∀ {l : List ℕ}, findLastIndexAux p l = none →
      ∀ j, j < l.length → p (l.getD j 0) = false := by
  intro l
  induction l with
  | nil => intro h j hj; simp at hj
  | cons v rest ih =>
    intro h j hj
    cases hr : findLastIndexAux p rest with
    | some k => simp [findLastIndexAux, hr] at h
    | none =>
      cases hv : p v with
      | true => simp [findLastIndexAux, hr, hv] at h
      | false =>
        cases j with
        | zero => simpa using hv
        | succ j0 =>
          simp only [List.getD_cons_succ]
          exact ih hr j0 (by simp at hj; omega)

lemma findLastIndexAux_some_max {p : ℕ → Bool} :
    ∀ {l : List ℕ} {i : ℕ}, findLastIndexAux p l = some i →
      ∀ j, i < j → j < l.length → p (l.getD j 0) = false := by
  intro l
  induction l with
  | nil => intro i h; simp [findLastIndexAux] at h
  | cons v rest ih =>
    intro i h j hij hj
    cases hr : findLastIndexAux p rest with
    | some k =>
      simp [findLastIndexAux, hr] at h
      subst h
      cases j with
      | zero => omega
      | succ j0 =>
        simp only [List.getD_cons_succ]
        exact ih hr j0 (by omega) (by simp at hj; omega)
    | none =>
      cases hv : p v with
      | true =>
        simp [findLastIndexAux, hr, hv] at h
        subst h
        cases j with
        | zero => omega
        | succ j0 =>
          simp only [List.getD_cons_succ]
          exact findLastIndexAux_none_all hr j0 (by simp at hj; omega)
      | false => simp [findLastIndexAux, hr, hv] at h

lemma findLastIndexAux_exists {p : ℕ → Bool} :
    ∀ {l : List ℕ} {i : ℕ}, i < l.length → p (l.getD i 0) = true →
      ∃ j, findLastIndexAux p l = some j ∧ i ≤ j := by
  intro l
  induction l with
  | nil => intro i hi; simp at hi
  | cons v rest ih =>
    intro i hi hp
    cases i with
    | zero =>
      cases hr : findLastIndexAux p rest with
      | some k => exact ⟨k + 1, by simp [findLastIndexAux, hr], Nat.zero_le _⟩
      | none =>
        have hv : p v = true := by simpa using hp
        exact ⟨0, by simp [findLastIndexAux, hr, hv], le_rfl⟩
    | succ i0 =>
      have hi0 : i0 < rest.length := by simp at hi; omega
      have hp0 : p (rest.getD i0 0) = true := by simpa using hp
      obtain ⟨j, hj, hji⟩ := ih hi0 hp0
      exact ⟨j + 1, by simp [findLastIndexAux, hj], by omega⟩

lemma floor_ratCast_natDiv (j m : ℕ) (hm : 0 < m) :
    ⌊(j : ℚ) / (m : ℚ)⌋ = ((j / m : ℕ) : ℤ) := by
  rw [Int.floor_eq_iff]
  constructor
  · rw [le_div_iff₀ (by exact_mod_cast hm)]
    exact_mod_cast Nat.div_mul_le_self j m
  · rw [div_lt_iff₀ (by exact_mod_cast hm)]
    have h : j < (j / m + 1) * m := (Nat.div_lt_iff_lt_mul hm).mp (Nat.lt_succ_self _)
    exact_mod_cast h

lemma getYPosition_natCast (j W : ℕ) (hW : 0 < W) :
    getYPosition (j : ℤ) (W : ℚ) = ((j / (4 * W) : ℕ) : ℤ) := by
  unfold getYPosition
  have h1 : (((j : ℤ) : ℚ)) / 4 / (W : ℚ) = (j : ℚ) / ((4 * W : ℕ) : ℚ) := by
    push_cast
    ring
  rw [h1, floor_ratCast_natDiv j (4 * W) (by omega)]

lemma getYPosition_neg_one (w : ℚ) (hw : 1 ≤ w) : getYPosition (-1) w = -1 := by
  unfold getYPosition
  have h4 : (0 : ℚ) < 4 * w := by linarith
  rw [div_div, Int.floor_eq_iff]
  constructor
  · rw [le_div_iff₀ h4]
    push_cast
    linarith
  · rw [div_lt_iff₀ h4]
    push_cast
    linarith

lemma isNotWhite_true_iff (v : ℕ) :
    isNotWhite v = true ↔ (v : ℚ) < 255 * THRESHOLD := by
  simp [isNotWhite]

lemma isNotWhite_false_iff (v : ℕ) :
    isNotWhite v = false ↔ ¬ ((v : ℚ) < 255 * THRESHOLD) := by
  simp [isNotWhite]

lemma isNotWhite_zero : isNotWhite 0 = true :=
  (isNotWhite_true_iff 0).mpr (by norm_num [THRESHOLD])

lemma isNotWhite_255 : isNotWhite 255 = false :=
  (isNotWhite_false_iff 255).mpr (by norm_num [THRESHOLD])

lemma getFontSize_defaults : getFontSize defaults = Except.ok 100 := by
  have h1 : digitsToNat (stripNonDigits "100px") = 100 := by decide
  simp [getFontSize, defaults, toNumber, h1]

lemma getFontSizeLegacy_defaults : getFontSizeLegacy defaults = Except.ok 100 := by
  have h0 : stripNonDigits "100px" = "100" := by decide
  have h1 : digitsToNat "100" = 100 := by decide
  have h2 : ("100" : String).isEmpty = false := by decide
  simp [getFontSizeLegacy, defaults, parseFloatDigits, h0, h1, h2]

lemma defaultsFill_empty : defaultsFill emptyProps = defaults := rfl

lemma findLastIndexAux_eq_none {p : ℕ → Bool} {l : List ℕ}
    (h : ∀ v ∈ l, p v = false) : findLastIndexAux p l = none := by
  induction l with
  | nil => rfl
  | cons v rest ih =>
    have hv : p v = false := h v (List.mem_cons_self v rest)
    have hr := ih (fun x hx => h x (List.mem_cons_of_mem v hx))
    simp [findLastIndexAux, hr, hv]

lemma getYPositionLegacy_neg_one (w : ℚ) (hw : 1 ≤ w) :
    getYPositionLegacy (-1) w = -1 := by
  unfold getYPositionLegacy
  have h4 : (0 : ℚ) < w * 4 := by linarith
  rw [Int.floor_eq_iff]
  constructor
  · rw [le_div_iff₀ h4]
    push_cast
    linarith
  · rw [div_lt_iff₀ h4]
    push_cast
    linarith

/-- Claim C6: under the exact-match policy a channel value is foreground iff
it equals 0, and under the threshold policy iff it is below
255 × 0.75 = 191.25; the predicates `isBlack` and `isNotWhite` realise
exactly these tests on every channel value. -/
theorem foreground_predicates (v : ℕ) :
    (isBlack v = true ↔ v = 0) ∧
    (isNotWhite v = true ↔ (v : ℚ) < 191.25) ∧
    (255 * THRESHOLD : ℚ) = 191.25 := by
  have hthr : (255 * THRESHOLD : ℚ) = 191.25 := by norm_num [THRESHOLD]
  refine ⟨by simp [isBlack], ?_, hthr⟩
  rw [isNotWhite_true_iff, hthr]

/-- Claim C8: the legacy height formula `descent + 1 - ascent` and the
primary formula `descent - ascent + 1` agree on every pair of integers, and
a single-row glyph (descent = ascent) yields height 1 under either. -/
theorem height_formulas_equal :
    (∀ ascent descent : ℤ,
      getHeightLegacy descent ascent = getHeight ⟨ascent, descent⟩) ∧
    (∀ a : ℤ, getHeight ⟨a, a⟩ = 1 ∧ getHeightLegacy a a = 1) := by
  constructor
  · intro a d
    simp only [getHeight, getHeightLegacy]
    omega
  · intro a
    simp only [getHeight, getHeightLegacy]
    omega

/-- Claim C2: the published value is `(heightPhysicalPx / devicePixelRatio) /
fontSizeLogicalPx`, and this number is exactly what `calculate` stores in the
`--cap-height` field of the result record. -/
theorem cap_height_published (h d f : ℚ) (hd : 0 < d) (hf : 0 < f)
    (raster : RasterBackend) (p : FontProperties) (text : String) (fs : ℚ)
    (hfs : getFontSize (defaultsFill p) = Except.ok fs)
    (htext : hasWhitespaceChar text = false) :
    capHeightFraction h d f = h / d / f ∧
    calculate raster d p text = Except.ok { defaultsFill p with
      capHeight := some (capHeightFraction
        ((getHeight (getMetrics
          (raster (defaultsFill p) text
            (physicalDimensionsOf d (rasterDimensions fs text)))
          (physicalDimensionsOf d (rasterDimensions fs text)).width) : ℤ) : ℚ)
        d fs) } := by
  constructor
  · rfl
  · unfold calculate measureTextHeight
    rw [hfs]
    simp [htext, capHeightFraction]

/-- Witness for C2 at heightPhysicalPx = 37, devicePixelRatio = 2 and
fontSizeLogicalPx = 100. -/
theorem cap_height_published_witness :
    (0 : ℚ) < 2 ∧ (0 : ℚ) < 100 ∧
    capHeightFraction 37 2 100 = 37 / 2 / 100 := by
  refine ⟨by norm_num, by norm_num, ?_⟩
  exact (cap_height_published 37 2 100 (by norm_num) (by norm_num)
    whiteRaster emptyProps "H" 100 getFontSize_defaults rfl).1

/-- Claim C3: font-size extraction strips the non-digit characters and
converts the remainder; it fails exactly when the conversion yields NaN or 0,
and on the concrete inputs "0px", "abcpx" and a missing font-size it fails
while "100px" yields 100. -/
theorem fontsize_extraction :
    (∀ properties : FontProperties,
      (getFontSize properties).isOk = false ↔
        (toNumber (stripNonDigits (properties.fontSize.getD "0")) = none ∨
         toNumber (stripNonDigits (properties.fontSize.getD "0")) = some 0)) ∧
    getFontSize ⟨none, none, some "0px", none, none⟩ =
      Except.error zeroFontSizeMsg ∧
    getFontSize ⟨none, none, some "abcpx", none, none⟩ =
      Except.error zeroFontSizeMsg ∧
    getFontSize emptyProps = Except.error zeroFontSizeMsg ∧
    getFontSize ⟨none, none, some "100px", none, none⟩ = Except.ok 100 ∧
    getFontSizeLegacy ⟨none, none, some "abcpx", none, none⟩ =
      Except.error invalidFontSizeMsg := by
  have h0px : digitsToNat (stripNonDigits "0px") = 0 := by decide
  have habc : digitsToNat (stripNonDigits "abcpx") = 0 := by decide
  have h0 : digitsToNat (stripNonDigits "0") = 0 := by decide
  have h100 : digitsToNat (stripNonDigits "100px") = 100 := by decide
  have habc2 : stripNonDigits "abcpx" = "" := by decide
  refine ⟨?_, ?_, ?_, ?_, ?_, ?_⟩
  · intro properties
    simp only [getFontSize, toNumber]
    by_cases hz :
        ((digitsToNat (stripNonDigits (properties.fontSize.getD "0")) : ℕ) : ℚ) = 0
    · simp [hz, Except.isOk, Except.toBool]
    · simp [hz, Except.isOk, Except.toBool]
  · simp [getFontSize, toNumber, h0px]
  · simp [getFontSize, toNumber, habc]
  · simp [getFontSize, emptyProps, toNumber, h0]
  · simp [getFontSize, toNumber, h100]
  · have hemp : ("" : String).isEmpty = true := rfl
    simp [getFontSizeLegacy, habc2, parseFloatDigits, hemp]

/-- Claim C5: the logical raster geometry is width `2 × fontSize ×
text.length` and height `2 × fontSize`, and the physical dimensions are the
logical ones multiplied by the device pixel ratio. -/
theorem raster_geometry (f dpr : ℚ) (text : String)
    (hf : 0 < f) (htext : hasWhitespaceChar text = false) :
    (rasterDimensions f text).width = 2 * f * (text.length : ℚ) ∧
    (rasterDimensions f text).height = 2 * f ∧
    (physicalDimensionsOf dpr (rasterDimensions f text)).width
      = (rasterDimensions f text).width * dpr ∧
    (physicalDimensionsOf dpr (rasterDimensions f text)).height
      = (rasterDimensions f text).height * dpr := by
  refine ⟨?_, ?_, rfl, rfl⟩
  · simp [rasterDimensions, MULTIPLIER]
  · simp [rasterDimensions, MULTIPLIER]

/-- Witness for C5 at fontSize = 100, text = "H" and device pixel ratio 2. -/
theorem raster_geometry_witness :
    (0 : ℚ) < 100 ∧ hasWhitespaceChar "H" = false ∧
    (rasterDimensions 100 "H").width = 2 * 100 * (("H" : String).length : ℚ) ∧
    (rasterDimensions 100 "H").height = 2 * 100 := by
  refine ⟨by norm_num, by decide, ?_, ?_⟩
  · exact (raster_geometry 100 2 "H" (by norm_num) (by decide)).1
  · exact (raster_geometry 100 2 "H" (by norm_num) (by decide)).2.1

/-- Claim C7: `calculate` on the empty record (with the default text) behaves
identically to `calculate` on the fully spelled-out default record, and
`defaultsFill` fills exactly the missing keys while keeping the present
ones. -/
theorem defaults_behavior (raster : RasterBackend) (dpr : ℚ)
    (p : FontProperties) :
    calculate raster dpr emptyProps defaultText = calculate raster dpr defaults "H" ∧
    (p.fontStyle = none → (defaultsFill p).fontStyle = some "normal") ∧
    (p.fontWeight = none → (defaultsFill p).fontWeight = some 400) ∧
    (p.fontSize = none → (defaultsFill p).fontSize = some "100px") ∧
    (p.fontFamily = none → (defaultsFill p).fontFamily = some "serif") ∧
    (∀ v, p.fontStyle = some v → (defaultsFill p).fontStyle = some v) ∧
    (∀ v, p.fontWeight = some v → (defaultsFill p).fontWeight = some v) ∧
    (∀ v, p.fontSize = some v → (defaultsFill p).fontSize = some v) ∧
    (∀ v, p.fontFamily = some v → (defaultsFill p).fontFamily = some v) := by
  exact ⟨rfl, fun h => by simp [defaultsFill, h], fun h => by simp [defaultsFill, h],
    fun h => by simp [defaultsFill, h], fun h => by simp [defaultsFill, h],
    fun v h => by simp [defaultsFill, h], fun v h => by simp [defaultsFill, h],
    fun v h => by simp [defaultsFill, h], fun v h => by simp [defaultsFill, h]⟩

/-- Witness for C7: a record with font-style "italic" and font-size "50px"
keeps those keys while the missing weight is filled with 400. -/
theorem defaults_behavior_witness :
    calculate whiteRaster 1 emptyProps defaultText =
      calculate whiteRaster 1 defaults "H" ∧
    (defaultsFill ⟨some "italic", none, some "50px", none, none⟩).fontStyle =
      some "italic" ∧
    (defaultsFill ⟨some "italic", none, some "50px", none, none⟩).fontWeight =
      some 400 := by
  obtain ⟨h1, _, hwt, _, _, hst, _, _, _⟩ :=
    defaults_behavior whiteRaster 1 ⟨some "italic", none, some "50px", none, none⟩
  exact ⟨h1, hst "italic" rfl, hwt rfl⟩

lemma measureTextHeightLegacy_empty :
    measureTextHeightLegacy whiteRaster defaults "" = Except.ok 1 := by
  unfold measureTextHeightLegacy
  rw [getFontSizeLegacy_defaults]
  have he : ("" : String).isEmpty = true := rfl
  have hH : hasWhitespaceChar "H" = false := by decide
  have hw : (1 : ℚ) ≤ MULTIPLIER * 100 * (("H" : String).length : ℚ) := by
    have hl : ("H" : String).length = 1 := rfl
    rw [hl]
    norm_num [MULTIPLIER]
  simp only [he, if_true, hH, Bool.false_eq_true, if_false, whiteRaster]
  simp [getDescentLegacy, getAscentLegacy, findIndex, findLastIndex,
    findIndexAux, findLastIndexAux, getYPositionLegacy_neg_one _ hw,
    getHeightLegacy]

lemma calculateLegacy_empty :
    calculateLegacy whiteRaster emptyProps "" =
      Except.ok { defaults with capHeight := some ((1 : ℚ) / 100) } := by
  unfold calculateLegacy
  simp only [defaultsFill_empty]
  rw [measureTextHeightLegacy_empty, getFontSizeLegacy_defaults]
  simp

/-- Claim C4 (amended): rasterization fails with the whitespace RangeError
exactly when the measurement text contains a whitespace character; in
particular " " and "a b" fail.  The empty string, although empty after
trimming, contains no whitespace character and is not rejected (the legacy
variant replaces it with the default text "H"). -/
theorem whitespace_rejection (raster : RasterBackend) (dpr : ℚ)
    (properties : FontProperties) (f : ℚ)
    (hf : getFontSize properties = Except.ok f) :
    (∀ text, measureTextHeight raster dpr text properties =
        Except.error whitespaceMsg ↔ hasWhitespaceChar text = true) ∧
    measureTextHeight raster dpr " " properties = Except.error whitespaceMsg ∧
    measureTextHeight raster dpr "a b" properties = Except.error whitespaceMsg := by
  have key : ∀ text, measureTextHeight raster dpr text properties =
      Except.error whitespaceMsg ↔ hasWhitespaceChar text = true := by
    intro text
    unfold measureTextHeight
    rw [hf]
    cases ht : hasWhitespaceChar text with
    | true => simp [ht]
    | false => simp [ht]
  exact ⟨key, (key " ").mpr (by decide), (key "a b").mpr (by decide)⟩

/-- Witness for C4: with the default properties, " " and "a b" are
rejected. -/
theorem whitespace_rejection_witness :
    getFontSize defaults = Except.ok 100 ∧
    measureTextHeight whiteRaster 1 " " defaults = Except.error whitespaceMsg ∧
    measureTextHeight whiteRaster 1 "a b" defaults = Except.error whitespaceMsg := by
  refine ⟨getFontSize_defaults, ?_, ?_⟩
  · exact (whitespace_rejection whiteRaster 1 defaults 100 getFontSize_defaults).2.1
  · exact (whitespace_rejection whiteRaster 1 defaults 100 getFontSize_defaults).2.2

/-- Counterexample for C4 as stated: the empty string is empty after
trimming (vacuously, every one of its characters is whitespace), yet neither
variant raises the whitespace error on it — the primary variant proceeds
past the whitespace test and the legacy variant substitutes "H" and returns
a result record. -/
theorem whitespace_rejection_cex :
    ("" : String).toList.all (fun c => c.isWhitespace) = true ∧
    hasWhitespaceChar "" = false ∧
    measureTextHeight whiteRaster 1 "" defaults ≠ Except.error whitespaceMsg ∧
    calculateLegacy whiteRaster emptyProps "" =
      Except.ok { defaults with capHeight := some ((1 : ℚ) / 100) } := by
  refine ⟨by decide, by decide, ?_, calculateLegacy_empty⟩
  unfold measureTextHeight
  rw [getFontSize_defaults]
  have hws : hasWhitespaceChar "" = false := by decide
  simp [hws]

/-- Claim C9: on a buffer with no foreground channel value at all, the scan
raises no error: both searches return the sentinel -1, `getYPosition` maps
it to row -1, the height formula evaluates to 1, and `calculate` silently
returns a record whose cap-height equals (1 / devicePixelRatio) /
fontSize. -/
theorem no_glyph_silent (buf : List ℕ) (w dpr f : ℚ) (raster : RasterBackend)
    (p : FontProperties) (text : String)
    (hw : 1 ≤ w) (hd : 0 < dpr)
    (hbuf : ∀ v ∈ buf, isNotWhite v = false)
    (hfs : getFontSize (defaultsFill p) = Except.ok f)
    (htext : hasWhitespaceChar text = false)
    (hraster : raster (defaultsFill p) text
      (physicalDimensionsOf dpr (rasterDimensions f text)) = buf)
    (hpw : 1 ≤ (physicalDimensionsOf dpr (rasterDimensions f text)).width) :
    findIndex isNotWhite buf = -1 ∧ findLastIndex isNotWhite buf = -1 ∧
    getAscent buf w = -1 ∧ getDescent buf w = -1 ∧
    getHeight (getMetrics buf w) = 1 ∧
    calculate raster dpr p text =
      Except.ok { defaultsFill p with capHeight := some (1 / dpr / f) } := by
  have hfi : findIndex isNotWhite buf = -1 := by
    simp [findIndex, findIndexAux_eq_none hbuf]
  have hfl : findLastIndex isNotWhite buf = -1 := by
    simp [findLastIndex, findLastIndexAux_eq_none hbuf]
  have hasc : getAscent buf w = -1 := by
    rw [getAscent, hfi]
    exact getYPosition_neg_one w hw
  have hdesc : getDescent buf w = -1 := by
    rw [getDescent, hfl]
    exact getYPosition_neg_one w hw
  have hh : getHeight (getMetrics buf w) = 1 := by
    simp [getMetrics, getHeight, hasc, hdesc]
  refine ⟨hfi, hfl, hasc, hdesc, hh, ?_⟩
  have hasc2 : getAscent buf
      (physicalDimensionsOf dpr (rasterDimensions f text)).width = -1 := by
    rw [getAscent, hfi]
    exact getYPosition_neg_one _ hpw
  have hdesc2 : getDescent buf
      (physicalDimensionsOf dpr (rasterDimensions f text)).width = -1 := by
    rw [getDescent, hfl]
    exact getYPosition_neg_one _ hpw
  unfold calculate measureTextHeight
  rw [hfs]
  simp [htext, hraster, getMetrics, hasc2, hdesc2, getHeight, toPx]

/-- Witness for C9: an empty (fully background) read-back with the default
properties yields cap-height (1 / 1) / 100. -/
theorem no_glyph_silent_witness :
    getAscent [] 1 = -1 ∧ getDescent [] 1 = -1 ∧
    getHeight (getMetrics [] 1) = 1 ∧
    calculate whiteRaster 1 emptyProps "H" =
      Except.ok { defaultsFill emptyProps with capHeight := some (1 / 1 / 100) } := by
  have hpw : (1 : ℚ) ≤
      (physicalDimensionsOf 1 (rasterDimensions 100 "H")).width := by
    have hl : ("H" : String).length = 1 := rfl
    norm_num [physicalDimensionsOf, rasterDimensions, toDot, MULTIPLIER, hl]
  have h := no_glyph_silent [] 1 1 100 whiteRaster emptyProps "H" le_rfl
    one_pos (by simp) getFontSize_defaults (by decide) rfl hpw
  exact ⟨h.2.2.1, h.2.2.2.1, h.2.2.2.2.1, h.2.2.2.2.2⟩

/-- Claim C10: on the heap model of the primary variant, `calculate` returns
the very same reference it was given, and after a successful call the record
at that reference contains the filled defaults together with the added
`--cap-height` field. -/
theorem calculate_mutates_in_place (raster : RasterBackend) (dpr : ℚ)
    (hp : Heap) (r : ℕ) (text : String) (f : ℚ)
    (hf : getFontSize (defaultsFill (hp r)) = Except.ok f)
    (htext : hasWhitespaceChar text = false) :
    ∃ h2 v, calculateRef raster dpr hp r text = Except.ok (h2, r) ∧
      h2 r = { defaultsFill (hp r) with capHeight := some v } := by
  have hread : heapUpdate hp r (defaultsFill (hp r)) r = defaultsFill (hp r) := by
    simp [heapUpdate]
  unfold calculateRef defaultsRef measureTextHeightRef
  simp only [hread]
  rw [hf]
  simp only [htext, Bool.false_eq_true, if_false, assignCapHeightRef, hread]
  refine ⟨_, toPx dpr ((getHeight (getMetrics
      (raster (defaultsFill (hp r)) text
        (physicalDimensionsOf dpr (rasterDimensions f text)))
      (physicalDimensionsOf dpr (rasterDimensions f text)).width) : ℤ) : ℚ) / f,
    rfl, ?_⟩
  simp [heapUpdate]

/-- Witness for C10 at the demonstration heap, reference 0 and text "H". -/
theorem calculate_mutates_in_place_witness :
    getFontSize (defaultsFill (demoHeap 0)) = Except.ok 100 ∧
    hasWhitespaceChar "H" = false ∧
    (∃ h2 v, calculateRef whiteRaster 1 demoHeap 0 "H" = Except.ok (h2, 0) ∧
      h2 0 = { defaultsFill (demoHeap 0) with capHeight := some v }) :=
  ⟨getFontSize_defaults, by decide,
    calculate_mutates_in_place whiteRaster 1 demoHeap 0 "H" 100
      getFontSize_defaults (by decide)⟩

/-- Claim C1: on a buffer of physical width W in which exactly the rows
r0..r1 contain a foreground channel value, the forward and backward scans
mapped through `row = floor((index / 4) / W)` return ascent r0 and descent
r1 exactly, and the height equals r1 - r0 + 1. -/
theorem scanner_row_roundtrip (W H r0 r1 : ℕ) (buf : List ℕ)
    (hW : 0 < W) (hlen : buf.length = 4 * W * H)
    (hr01 : r0 ≤ r1) (hr1 : r1 < H)
    (hfg : ∀ r, r0 ≤ r → r ≤ r1 →
      ∃ i, i < buf.length ∧ i / (4 * W) = r ∧ isNotWhite (buf.getD i 0) = true)
    (hbg : ∀ i, i < buf.length → (i / (4 * W) < r0 ∨ r1 < i / (4 * W)) →
      isNotWhite (buf.getD i 0) = false) :
    getAscent buf (W : ℚ) = (r0 : ℤ) ∧ getDescent buf (W : ℚ) = (r1 : ℤ) ∧
    getHeight (getMetrics buf (W : ℚ)) = (r1 : ℤ) - (r0 : ℤ) + 1 := by
  obtain ⟨i0, hi0len, hi0row, hi0p⟩ := hfg r0 le_rfl hr01
  obtain ⟨j, hj, hjle⟩ := findIndexAux_exists hi0len hi0p
  have hjlen := findIndexAux_some_lt hj
  have hjp := findIndexAux_some_p hj
  have hjrow_le : j / (4 * W) ≤ r0 := by
    rw [← hi0row]
    exact Nat.div_le_div_right hjle
  have hjrow_ge : ¬ (j / (4 * W) < r0) := by
    intro hlt
    have hcontra := hbg j hjlen (Or.inl hlt)
    rw [hjp] at hcontra
    exact Bool.noConfusion hcontra
  have hjrow : j / (4 * W) = r0 := le_antisymm hjrow_le (not_lt.mp hjrow_ge)
  have hasc : getAscent buf (W : ℚ) = (r0 : ℤ) := by
    rw [getAscent]
    have hidx : findIndex isNotWhite buf = (j : ℤ) := by simp [findIndex, hj]
    rw [hidx, getYPosition_natCast j W hW, hjrow]
  obtain ⟨i1, hi1len, hi1row, hi1p⟩ := hfg r1 hr01 le_rfl
  obtain ⟨k, hk, hkge⟩ := findLastIndexAux_exists hi1len hi1p
  have hklen := findLastIndexAux_some_lt hk
  have hkp := findLastIndexAux_some_p hk
  have hkrow_ge : r1 ≤ k / (4 * W) := by
    rw [← hi1row]
    exact Nat.div_le_div_right hkge
  have hkrow_le : ¬ (r1 < k / (4 * W)) := by
    intro hlt
    have hcontra := hbg k hklen (Or.inr hlt)
    rw [hkp] at hcontra
    exact Bool.noConfusion hcontra
  have hkrow : k / (4 * W) = r1 := le_antisymm (not_lt.mp hkrow_le) hkrow_ge
  have hdesc : getDescent buf (W : ℚ) = (r1 : ℤ) := by
    rw [getDescent]
    have hidx : findLastIndex isNotWhite buf = (k : ℤ) := by
      simp [findLastIndex, hk]
    rw [hidx, getYPosition_natCast k W hW, hkrow]
  exact ⟨hasc, hdesc, by simp [getMetrics, getHeight, hasc, hdesc]⟩

/-- Witness for C1: a width-1, two-row buffer whose rows 0 and 1 both
contain a foreground channel. -/
theorem scanner_row_roundtrip_witness :
    getAscent demoBuf ((1 : ℕ) : ℚ) = ((0 : ℕ) : ℤ) ∧
    getDescent demoBuf ((1 : ℕ) : ℚ) = ((1 : ℕ) : ℤ) ∧
    getHeight (getMetrics demoBuf ((1 : ℕ) : ℚ)) =
      ((1 : ℕ) : ℤ) - ((0 : ℕ) : ℤ) + 1 := by
  refine scanner_row_roundtrip 1 2 0 1 demoBuf (by norm_num) (by decide)
    (by norm_num) (by norm_num) ?_ ?_
  · intro r h0 h1
    interval_cases r
    · exact ⟨0, by decide, by decide, isNotWhite_zero⟩
    · exact ⟨4, by decide, by decide, isNotWhite_zero⟩
  · intro i hi hcase
    exfalso
    have hlen : demoBuf.length = 8 := by decide
    rw [hlen] at hi
    rcases hcase with hlt | hgt
    · omega
    · omega

end CapHeight
